import Mathlib

/-!
Verification development for the MCP chat client (src/src/mcp_client.py).

The Python source is shallowly embedded: the model API and the tool
provider are external collaborators, so they are passed in as explicit
parameters (the model as a list of per-round output items, the tool
provider as a pure function from tool name and decoded arguments to a
list of content segments, and JSON decoding as a fallible function).
All other logic is translated line by line from the source.
-/

/-- Content segment of a tool-provider response (result.content in the
source). A segment is either a TextContent carrying its text, or any
other typed segment carried here by its textual str rendering. -/
inductive ContentSeg : Type
  | text (t : String)
  | other (s : String)
deriving DecidableEq, Repr

/-- Embedding of the normalization loop at lines 126-131 of the source:
tool_result_text starts empty and, for each segment in order, appends
the text of a TextContent segment or the str rendering of any other
segment. -/
def extractToolText (content : List ContentSeg) : String :=
  content.foldl
    (fun acc c =>
      match c with
      | ContentSeg.text t => acc ++ t
      | ContentSeg.other s => acc ++ s) ""

/-- Textual rendering of one segment, as the spec describes it. -/
def renderSeg : ContentSeg → String
  | ContentSeg.text t => t
  | ContentSeg.other s => s

/-- Modelled from the spec words for comparison with the source loop:
the in-order concatenation of the rendering of each segment, with no
separator inserted between segments. -/
def specNormalized : List ContentSeg → String
  | [] => ""
  | c :: cs => renderSeg c ++ specNormalized cs

theorem extractToolText_go (cs : List ContentSeg) :
    ∀ acc : String,
      cs.foldl
        (fun acc c =>
          match c with
          | ContentSeg.text t => acc ++ t
          | ContentSeg.other s => acc ++ s) acc = acc ++ specNormalized cs := by
  induction cs with
  | nil => intro acc; simp [specNormalized]
  | cons c cs ih =>
    intro acc
    cases c with
    | text t => simp [specNormalized, renderSeg, List.foldl, ih, String.append_assoc]
    | other s => simp [specNormalized, renderSeg, List.foldl, ih, String.append_assoc]

/-- C2: for every ordered list of content segments, the normalized tool
result text equals the in-order, separator-free concatenation of the
text of each text segment and the textual rendering of each non-text
segment; the empty segment list yields the empty string. -/
theorem tool_result_normalization (cs : List ContentSeg) :
    extractToolText cs = specNormalized cs ∧ extractToolText [] = "" := by
  constructor
  · unfold extractToolText
    simpa using extractToolText_go cs ""
  · rfl

/-- Tool descriptor as enumerated from the provider (name, description,
inputSchema), with the schema type left abstract. -/
structure MCPTool (σ : Type) where
  name : String
  description : String
  inputSchema : σ
deriving DecidableEq, Repr

/-- Function schema passed to the model, mirroring the dict built at
lines 74-80 of the source. -/
structure FunctionSchema (σ : Type) where
  type : String
  name : String
  description : String
  parameters : σ
  strict : Bool
deriving DecidableEq, Repr

/-- Embedding of the schema-building loop at lines 70-81 of the source:
each enumerated tool descriptor becomes one function schema, in order. -/
def buildFunctions {σ : Type} (tools : List (MCPTool σ)) : List (FunctionSchema σ) :=
  tools.map
    (fun tool =>
      { type := "function"
        name := tool.name
        description := tool.description
        parameters := tool.inputSchema
        strict := false })

/-- C3: the function-schema list passed to the model preserves the
provider-declared order and length, and carries each descriptor checking
name, description and input-schema through unmodified. -/
theorem function_schemas_preserve_descriptors {σ : Type}
    (tools : List (MCPTool σ)) :
    (buildFunctions tools).length = tools.length ∧
    (buildFunctions tools).map FunctionSchema.name = tools.map MCPTool.name ∧
    (buildFunctions tools).map FunctionSchema.description
      = tools.map MCPTool.description ∧
    (buildFunctions tools).map FunctionSchema.parameters
      = tools.map MCPTool.inputSchema := by
  refine ⟨?_, ?_, ?_, ?_⟩ <;> simp [buildFunctions]

/-- Conversation message, mirroring the role-tagged dicts the source
appends to messages: the system priming message, the user query, an
assistant message recording one tool-call request (content None plus a
single tool_calls entry with id, name and raw arguments), and a
tool-role message carrying the tool_call_id back-reference and the
normalized result text. -/
inductive Message : Type
  | system (content : String)
  | user (content : String)
  | assistant (callId : String) (name : String) (arguments : String)
  | tool (toolCallId : String) (content : String)
deriving DecidableEq, Repr

/-- Model output item for one round (response.output[0] in the source):
a plain message carrying the texts of its content parts, a function
call with call id, tool name and serialized argument blob, or an output
of any other type, carried by its type tag. -/
inductive MsgOutput : Type
  | message (content : List String)
  | functionCall (callId : String) (name : String) (arguments : String)
  | other (ty : String)
deriving DecidableEq, Repr

/-- Errors process_query can raise: IndexError on an empty message
content list, a json.loads failure on the argument blob, the
RuntimeError for an unexpected output type, and exhaustion of the
supplied model-output trace (the real model always answers, so this
last case models the model never replying). -/
inductive QueryError : Type
  | emptyMessageContent
  | jsonDecodeError (raw : String)
  | unexpectedOutput (ty : String)
  | noMoreOutputs
deriving DecidableEq, Repr

/-- Embedding of the newline join at line 144 of the source, the Python
expression that joins final_text with a newline separator. -/
def joinNl : List String → String
  | [] => ""
  | [a] => a
  | a :: rest => a ++ "\n" ++ joinNl rest

/-- System priming message content from lines 62-63 of the source. -/
def systemPrompt : String :=
  "You are a helpful assistant. If a relevant function is available, always use the function call system " ++
  "instead of explaining it. Do not describe or suggest function calls — just call the function directly."

/-- Embedding of the while loop of process_query (lines 85-142).
Parameters: provider is session.call_tool, decode is json.loads over
the argument blob (α is the decoded-argument type), outputs lists the
first output item of each successive model response, msgs is the
running conversation and finalText the final_text accumulator. The
result pairs the conversation state at exit with either the joined
answer or the raised error, so that the conversation state at the
moment an error is raised is observable. -/
def processRounds {α : Type} (provider : String → α → List ContentSeg)
    (decode : String → Option α) :
    List MsgOutput → List Message → List String →
      List Message × Except QueryError String
  | [], msgs, _ => (msgs, Except.error QueryError.noMoreOutputs)
  | out :: rest, msgs, finalText =>
    match out with
    | MsgOutput.message content =>
      match content with
      | [] => (msgs, Except.error QueryError.emptyMessageContent)
      | t :: _ => (msgs, Except.ok (joinNl (finalText ++ [t])))
    | MsgOutput.functionCall callId name arguments =>
      let assistantMessage := Message.assistant callId name arguments
      let msgs1 := msgs ++ [assistantMessage]
      match decode arguments with
      | none => (msgs1, Except.error (QueryError.jsonDecodeError arguments))
      | some toolArgs =>
        let result := provider name toolArgs
        let toolResultText := extractToolText result
        let msgs2 := msgs1 ++ [Message.tool callId toolResultText]
        processRounds provider decode rest msgs2 finalText
    | MsgOutput.other ty => (msgs, Except.error (QueryError.unexpectedOutput ty))

/-- Embedding of process_query (lines 56-144): build the initial
conversation of system priming message and user query, build the
function schemas from the enumerated tools, then run the round loop
with an empty final_text accumulator. -/
def processQuery {α σ : Type} (provider : String → α → List ContentSeg)
    (decode : String → Option α) (tools : List (MCPTool σ))
    (outputs : List MsgOutput) (query : String) :
    List Message × Except QueryError String :=
  let messages := [Message.system systemPrompt, Message.user query]
  let _functions := buildFunctions tools
  processRounds provider decode outputs messages []

/-- C1: the round loop stops at the first plain-message output: the
conversation gains no further message, the remaining outputs are never
consumed, and the answer is exactly the text of that message (the
newline join of the accumulator, empty up to that point, degenerates to
the single text); stated both for the loop at an arbitrary reachable
state and for a whole query. -/
theorem first_plain_message_terminates {α σ : Type}
    (provider : String → α → List ContentSeg) (decode : String → Option α)
    (tools : List (MCPTool σ)) (t : String) (ts : List String)
    (rest : List MsgOutput) (msgs : List Message) (query : String) :
    processRounds provider decode (MsgOutput.message (t :: ts) :: rest) msgs []
        = (msgs, Except.ok t) ∧
    processQuery provider decode tools (MsgOutput.message (t :: ts) :: rest) query
        = ([Message.system systemPrompt, Message.user query], Except.ok t) := by
  constructor <;> rfl

/-- C4: an output item that is neither a plain message nor a function
call makes the loop raise the unexpected-output error at once: no
message is appended for that round and the remaining outputs are never
consumed. -/
theorem unexpected_output_raises {α : Type}
    (provider : String → α → List ContentSeg) (decode : String → Option α)
    (ty : String) (rest : List MsgOutput) (msgs : List Message)
    (finalText : List String) :
    processRounds provider decode (MsgOutput.other ty :: rest) msgs finalText
      = (msgs, Except.error (QueryError.unexpectedOutput ty)) := by
  rfl

/-- C10: when the argument blob of a function-call output fails to
decode, the error is raised only after the assistant message recording
the request has been appended, and no tool message follows for that
round: the failure is not atomic with respect to conversation state. -/
theorem decode_failure_after_assistant_append {α : Type}
    (provider : String → α → List ContentSeg) (decode : String → Option α)
    (callId name arguments : String) (rest : List MsgOutput)
    (msgs : List Message) (finalText : List String)
    (h : decode arguments = none) :
    processRounds provider decode
        (MsgOutput.functionCall callId name arguments :: rest) msgs finalText
      = (msgs ++ [Message.assistant callId name arguments],
         Except.error (QueryError.jsonDecodeError arguments)) := by
  simp [processRounds, h]

/-- Tool provider returning no content for any call, used to
instantiate theorems at concrete inputs. -/
def emptyProvider : String → Nat → List ContentSeg := fun _ _ => []

/-- Decoder that fails on every argument blob, modelling json.loads on
malformed input. -/
def noDecode : String → Option Nat := fun _ => none

/-- Witness for C10 at a concrete malformed-arguments round. -/
theorem decode_failure_after_assistant_append_witness :
    processRounds emptyProvider noDecode
        (MsgOutput.functionCall "call_1" "get_weather" "not json" :: []) [] []
      = ([Message.assistant "call_1" "get_weather" "not json"],
         Except.error (QueryError.jsonDecodeError "not json")) :=
  decode_failure_after_assistant_append emptyProvider noDecode
    "call_1" "get_weather" "not json" [] [] [] rfl

/-- Call identifiers recorded by assistant messages in a message list,
accumulated onto an initial set, most recent first. -/
def seenAfter (seen : List String) : List Message → List String
  | [] => seen
  | Message.assistant callId _ _ :: rest => seenAfter (callId :: seen) rest
  | _ :: rest => seenAfter seen rest

/-- Scan of a message list: every tool-role message must carry a
back-reference among the call identifiers already seen, where seen
accumulates the identifiers recorded by assistant messages strictly
earlier in the scan. -/
def wellLinkedAux (seen : List String) : List Message → Bool
  | [] => true
  | Message.tool toolCallId _ :: rest =>
    seen.contains toolCallId && wellLinkedAux seen rest
  | Message.assistant callId _ _ :: rest =>
    wellLinkedAux (callId :: seen) rest
  | _ :: rest => wellLinkedAux seen rest

/-- Back-reference invariant of the spec for a whole message sequence. -/
def wellLinked (msgs : List Message) : Bool := wellLinkedAux [] msgs

theorem wellLinkedAux_append (xs : List Message) :
    ∀ (seen : List String) (ys : List Message),
      wellLinkedAux seen (xs ++ ys)
        = (wellLinkedAux seen xs && wellLinkedAux (seenAfter seen xs) ys) := by
  induction xs with
  | nil => intro seen ys; simp [wellLinkedAux, seenAfter]
  | cons m xs ih =>
    intro seen ys
    cases m with
    | system c => simp [wellLinkedAux, seenAfter, ih]
    | user c => simp [wellLinkedAux, seenAfter, ih]
    | assistant callId name arguments => simp [wellLinkedAux, seenAfter, ih]
    | tool toolCallId c =>
      simp [wellLinkedAux, seenAfter, ih, Bool.and_assoc]

theorem processRounds_wellLinkedAux {α : Type}
    (provider : String → α → List ContentSeg) (decode : String → Option α)
    (outputs : List MsgOutput) :
    ∀ (msgs : List Message) (finalText : List String) (seen : List String),
      wellLinkedAux seen (processRounds provider decode outputs msgs finalText).1
        = wellLinkedAux seen msgs := by
  induction outputs with
  | nil => intro msgs finalText seen; rfl
  | cons out rest ih =>
    intro msgs finalText seen
    cases out with
    | message content =>
      cases content with
      | nil => rfl
      | cons t ts => rfl
    | functionCall callId name arguments =>
      cases h : decode arguments with
      | none =>
        simp [processRounds, h, wellLinkedAux_append, wellLinkedAux, seenAfter]
      | some toolArgs =>
        simp [processRounds, h, ih, wellLinkedAux_append, wellLinkedAux, seenAfter]
    | other ty => rfl

/-- C5: in every conversation produced by process_query, every
tool-role message carries a back-reference equal to the call identifier
recorded by an assistant-role message strictly earlier in the
sequence. -/
theorem tool_messages_answer_earlier_calls {α σ : Type}
    (provider : String → α → List ContentSeg) (decode : String → Option α)
    (tools : List (MCPTool σ)) (outputs : List MsgOutput) (query : String) :
    wellLinked (processQuery provider decode tools outputs query).1 = true := by
  unfold wellLinked processQuery
  rw [processRounds_wellLinkedAux]
  rfl

/-- Message of assistant or tool role, the only roles the round loop
ever appends after the initial two messages. -/
def isAssistantOrTool : Message → Bool
  | Message.assistant _ _ _ => true
  | Message.tool _ _ => true
  | _ => false

theorem processRounds_append_only {α : Type}
    (provider : String → α → List ContentSeg) (decode : String → Option α)
    (outputs : List MsgOutput) :
    ∀ (msgs : List Message) (finalText : List String),
      ∃ t, (processRounds provider decode outputs msgs finalText).1 = msgs ++ t
        ∧ t.all isAssistantOrTool = true := by
  induction outputs with
  | nil => intro msgs finalText; exact ⟨[], by simp [processRounds]⟩
  | cons out rest ih =>
    intro msgs finalText
    cases out with
    | message content =>
      cases content with
      | nil => exact ⟨[], by simp [processRounds]⟩
      | cons t ts => exact ⟨[], by simp [processRounds]⟩
    | functionCall callId name arguments =>
      cases h : decode arguments with
      | none =>
        refine ⟨[Message.assistant callId name arguments], ?_⟩
        simp [processRounds, h, isAssistantOrTool]
      | some toolArgs =>
        obtain ⟨t, ht, hall⟩ :=
          ih (msgs ++ [Message.assistant callId name arguments,
                Message.tool callId (extractToolText (provider name toolArgs))])
            finalText
        refine ⟨Message.assistant callId name arguments
            :: Message.tool callId (extractToolText (provider name toolArgs)) :: t, ?_, ?_⟩
        · simpa [processRounds, h] using ht
        · simpa [isAssistantOrTool] using hall
    | other ty => exact ⟨[], by simp [processRounds]⟩

/-- C6: the conversation is append-only: from any reachable state the
loop only ever extends the sequence, appending only assistant-role and
tool-role messages; the system priming message is the first element of
the sequence produced by process_query, appended exactly once at query
start (the user query is second and everything after position two is
assistant or tool role, so no later step adds or alters a system
message). -/
theorem conversation_append_only {α σ : Type}
    (provider : String → α → List ContentSeg) (decode : String → Option α)
    (tools : List (MCPTool σ)) (outputs : List MsgOutput) (query : String)
    (msgs : List Message) (finalText : List String) :
    (∃ t, (processRounds provider decode outputs msgs finalText).1 = msgs ++ t
        ∧ t.all isAssistantOrTool = true) ∧
    (processQuery provider decode tools outputs query).1.take 2
        = [Message.system systemPrompt, Message.user query] ∧
    ((processQuery provider decode tools outputs query).1.drop 2).all
        isAssistantOrTool = true := by
  obtain ⟨t, ht, hall⟩ := processRounds_append_only provider decode outputs
    [Message.system systemPrompt, Message.user query] []
  refine ⟨processRounds_append_only provider decode outputs msgs finalText, ?_, ?_⟩
  · unfold processQuery
    rw [ht]
    rfl
  · unfold processQuery
    rw [ht]
    simpa using hall

/-- Whitespace characters stripped by the Python str.strip method used
at line 153 of the source (the ASCII whitespace set; all input in this
development is ASCII). -/
def pyWhitespace (c : Char) : Bool :=
  c = ' ' || c = '\t' || c = '\n' || c = '\x0b' || c = '\x0c' || c = '\r'

/-- Embedding of Python str.strip with no argument: drop leading and
trailing whitespace. -/
def pyStrip (s : String) : String :=
  String.mk (((s.toList.dropWhile pyWhitespace).reverse.dropWhile pyWhitespace).reverse)

/-- Embedding of Python str.lower for the ASCII inputs this development
uses: lowercase each character. -/
def pyLower (s : String) : String := String.mk (s.toList.map Char.toLower)

/-- Embedding of chat_loop (lines 146-162 of the source) over a finite
list of input lines, with the query processor passed in (process_query
either returns an answer or raises, so it is an Except; the error
string models str(e)). Each processed line contributes one printed
string: the newline-prefixed response on success, or the error line
printed by the except handler. A quit line ends the loop; exhausting
the input list ends the model. -/
def chatLoop (proc : String → Except String String) : List String → List String
  | [] => []
  | line :: rest =>
    let query := pyStrip line
    if pyLower query = "quit" then []
    else
      match proc query with
      | Except.ok response => ("\n" ++ response) :: chatLoop proc rest
      | Except.error e => ("\nError: " ++ e) :: chatLoop proc rest

/-- C7: an error raised while processing one query is caught at the
prompt boundary and printed as an error line, and the loop goes on to
serve the remaining prompts exactly as it would have: the session is
not torn down by the error. -/
theorem query_error_is_isolated (proc : String → Except String String)
    (line : String) (rest : List String) (e : String)
    (hq : pyLower (pyStrip line) ≠ "quit")
    (he : proc (pyStrip line) = Except.error e) :
    chatLoop proc (line :: rest) = ("\nError: " ++ e) :: chatLoop proc rest := by
  simp [chatLoop, hq, he]

/-- Query processor that fails on every query, used to instantiate the
error-isolation theorem. -/
def errProc : String → Except String String := fun _ => Except.error "boom"

/-- Witness for C7: a failing query prints the error and the next
prompt is still served. -/
theorem query_error_is_isolated_witness :
    chatLoop errProc ["hello", "bye"] = ["\nError: boom", "\nError: boom"] := by
  rw [query_error_is_isolated errProc "hello" ["bye"] "boom" (by decide) rfl]
  rfl

/-- Predicate of claim C9 as stated: the input line is equal to the
token quit in some letter case, that is, its characterwise lowering is
the string quit with no surrounding whitespace. -/
def isQuitTokenAnyCase (line : String) : Bool := pyLower line = "quit"

/-- Query processor that tags every query it is given, so that the
output of chatLoop records exactly which lines were processed. -/
def probeProc : String → Except String String := fun q => Except.ok ("processed:" ++ q)

/-- Counterexample to C9 as stated: the input line consisting of a
space followed by quit is not equal to the token quit in any letter
case, yet the chat loop terminates on it without processing it as a
query (the loop output is empty, while processing it would print a
response line), because the source strips the line before the
comparison. -/
theorem quit_claim_counterexample :
    isQuitTokenAnyCase " quit" = false ∧ chatLoop probeProc [" quit"] = [] := by
  constructor
  · decide
  · rfl

/-- C9 amended: a line terminates the loop exactly when its
whitespace-stripped form equals quit case-insensitively, and every
other line is processed as a query, its stripped form passed to
process_query, without involving the model or any tool for the quit
case. -/
theorem quit_stripped_case_insensitive (proc : String → Except String String)
    (line : String) (rest : List String) :
    (pyLower (pyStrip line) = "quit" → chatLoop proc (line :: rest) = []) ∧
    (pyLower (pyStrip line) ≠ "quit" →
      chatLoop proc (line :: rest)
        = (match proc (pyStrip line) with
           | Except.ok response => ("\n" ++ response) :: chatLoop proc rest
           | Except.error e => ("\nError: " ++ e) :: chatLoop proc rest)) := by
  constructor
  · intro hq
    simp [chatLoop, hq]
  · intro hq
    simp [chatLoop, hq]

/-- Witness for the amended C9: the line QUIT in capitals ends the loop
before a later line, and a non-quit line is processed. -/
theorem quit_stripped_case_insensitive_witness :
    chatLoop probeProc ["QUIT", "later"] = [] ∧
    chatLoop probeProc ["hi"] = ["\nprocessed:hi"] := by
  constructor
  · exact (quit_stripped_case_insensitive probeProc "QUIT" ["later"]).1 (by decide)
  · rw [(quit_stripped_case_insensitive probeProc "hi" []).2 (by decide)]
    rfl

/-- Embedding of Python str.endswith: the reversed character list of
the string starts with the reversed character list of the suffix. -/
def pyEndsWith (s suffix : String) : Bool :=
  s.toList.reverse.take suffix.toList.length == suffix.toList.reverse

/-- Effects connect_to_server performs after validating the server
script path, in order: enter the stdio transport, open the client
session, run the protocol handshake, enumerate the tools once, and
report connectivity (lines 36-54 of the source). -/
inductive ConnectStep : Type
  | establishTransport
  | openSession
  | handshake
  | listTools
  | reportTools
deriving DecidableEq, Repr

/-- Embedding of connect_to_server (lines 25-54 of the source): the
path must end in .py or .js, otherwise a ValueError is raised before
any transport work; on success the command is python for a .py script
and node otherwise, and the connection effects run in order. -/
def connect_to_server (server_script_path : String) :
    List ConnectStep × Except String String :=
  let is_python := pyEndsWith server_script_path ".py"
  let is_js := pyEndsWith server_script_path ".js"
  if ¬(is_python || is_js) then
    ([], Except.error "Server script must be a .py or .js file")
  else
    let command := if is_python then "python" else "node"
    ([ConnectStep.establishTransport, ConnectStep.openSession,
      ConnectStep.handshake, ConnectStep.listTools, ConnectStep.reportTools],
     Except.ok command)

/-- C8: connect_to_server raises exactly when the server identifier is
neither a .py nor a .js script, and in that case it raises before
performing any connection effect: the effect trace is empty. -/
theorem connect_rejects_unsupported_kinds (server_script_path : String) :
    ((connect_to_server server_script_path).2
        = Except.error "Server script must be a .py or .js file"
      ↔ (pyEndsWith server_script_path ".py" || pyEndsWith server_script_path ".js")
          = false) ∧
    ((pyEndsWith server_script_path ".py" || pyEndsWith server_script_path ".js")
          = false →
      (connect_to_server server_script_path).1 = []) := by
  by_cases h : (pyEndsWith server_script_path ".py"
      || pyEndsWith server_script_path ".js") = false
  · constructor
    · simp [connect_to_server, h]
    · intro _
      simp [connect_to_server, h]
  · constructor
    · simp only [Bool.not_eq_false] at h
      simp [connect_to_server, h]
    · intro hc
      exact absurd hc h

/-- Witness for C8: a .txt path is rejected with an empty effect trace,
and a .py path connects. -/
theorem connect_rejects_unsupported_kinds_witness :
    (connect_to_server "server.txt").2
        = Except.error "Server script must be a .py or .js file" ∧
    (connect_to_server "server.txt").1 = [] ∧
    (connect_to_server "weather.py").2 = Except.ok "python" := by
  refine ⟨(connect_rejects_unsupported_kinds "server.txt").1.mpr (by decide),
    (connect_rejects_unsupported_kinds "server.txt").2 (by decide), ?_⟩
  rfl
